import Mathlib

/-!
# Verification of the DineTime request-signing core (`streamlit_app.py`)

A shallow embedding of the signing pipeline of the repository's single
source file.  Python byte strings are modelled as `List Nat` (each entry a
byte value `< 256`), Python text strings as Lean `String` (and, for the
encoding-error model, as `List Nat` of Unicode code points, since Python
`str` may contain lone surrogates that Lean `Char` cannot represent).

The file contains:
* executable SHA-256, SHA-1 and HMAC-SHA1 over byte lists (the `hashlib` /
  `hmac` calls of the source);
* the UTF-8 encoder and the `urllib.parse.quote(_, safe='')`
  percent-encoder (`canonical_url_encode`, `double_encode`);
* the timestamp formatter `strftime('%Y-%m-%dT%H:%M:%S.%f')[:-3] + 'Z'`;
* `generate_signature`, the header builder and `paginate_data`;
* a code-point-level model of the same pipeline that makes Python's
  `UnicodeEncodeError` explicit;
* theorems settling the specification claims about these functions.
-/

/-- Lowercase hexadecimal digit character for `d < 16` (Python `hexdigest`). -/
def hexLowerChar (d : Nat) : Char :=
  if d < 10 then Char.ofNat (48 + d) else Char.ofNat (87 + d)

/-- Uppercase hexadecimal digit character for `d < 16` (Python `quote` uses
`%XX` with uppercase hex). -/
def hexUpperChar (d : Nat) : Char :=
  if d < 10 then Char.ofNat (48 + d) else Char.ofNat (55 + d)

/-- Lowercase hex rendering of a list of bytes, as `bytes.hex()` /
`hashlib`'s `hexdigest` produce. -/
def bytesToHexLower (bs : List Nat) : String :=
  ⟨bs.flatMap fun b => [hexLowerChar (b / 16), hexLowerChar (b % 16)]⟩

/-- 32-bit rotate right (inputs are words `< 2^32`). -/
def rotr32 (n w : Nat) : Nat :=
  ((w >>> n) ||| (w <<< (32 - n))) % 4294967296

/-- 32-bit rotate left (inputs are words `< 2^32`). -/
def rotl32 (n w : Nat) : Nat :=
  ((w <<< n) ||| (w >>> (32 - n))) % 4294967296

/-- Big-endian 8-byte rendering of a bit length, as used by the SHA padding. -/
def be64 (n : Nat) : List Nat :=
  [(n >>> 56) % 256, (n >>> 48) % 256, (n >>> 40) % 256, (n >>> 32) % 256,
   (n >>> 24) % 256, (n >>> 16) % 256, (n >>> 8) % 256, n % 256]

/-- Merkle–Damgård padding shared by SHA-1 and SHA-256: append `128`, zero
bytes to 56 mod 64, then the message bit length as 8 big-endian bytes. -/
def shaPad (msg : List Nat) : List Nat :=
  msg ++ [128] ++ List.replicate ((119 - msg.length % 64) % 64) 0
      ++ be64 (8 * msg.length)

/-- Group a byte list into big-endian 32-bit words. -/
def bytesToWords : List Nat → List Nat
  | b0 :: b1 :: b2 :: b3 :: rest =>
      (b0 * 16777216 + b1 * 65536 + b2 * 256 + b3) :: bytesToWords rest
  | _ => []

/-- Split a word list into blocks of 16 words (a padded message always has a
multiple of 16 words). -/
def chunk16 : List Nat → List (List Nat)
  | w0 :: w1 :: w2 :: w3 :: w4 :: w5 :: w6 :: w7 ::
    w8 :: w9 :: w10 :: w11 :: w12 :: w13 :: w14 :: w15 :: rest =>
      [w0, w1, w2, w3, w4, w5, w6, w7, w8, w9, w10, w11, w12, w13, w14, w15]
        :: chunk16 rest
  | _ => []

/-- Big-endian byte rendering of one 32-bit word. -/
def word32ToBytes (w : Nat) : List Nat :=
  [(w >>> 24) % 256, (w >>> 16) % 256, (w >>> 8) % 256, w % 256]

/-- SHA-256 message-schedule σ₀. -/
def ssig0 (x : Nat) : Nat := rotr32 7 x ^^^ rotr32 18 x ^^^ (x >>> 3)

/-- SHA-256 message-schedule σ₁. -/
def ssig1 (x : Nat) : Nat := rotr32 17 x ^^^ rotr32 19 x ^^^ (x >>> 10)

/-- SHA-256 round function Σ₀. -/
def bsig0 (x : Nat) : Nat := rotr32 2 x ^^^ rotr32 13 x ^^^ rotr32 22 x

/-- SHA-256 round function Σ₁. -/
def bsig1 (x : Nat) : Nat := rotr32 6 x ^^^ rotr32 11 x ^^^ rotr32 25 x

/-- The 64 SHA-256 round constants. -/
def sha256K : List Nat :=
  [1116352408, 1899447441, 3049323471, 3921009573, 961987163, 1508970993,
   2453635748, 2870763221, 3624381080, 310598401, 607225278, 1426881987,
   1925078388, 2162078206, 2614888103, 3248222580, 3835390401, 4022224774,
   264347078, 604807628, 770255983, 1249150122, 1555081692, 1996064986,
   2554220882, 2821834349, 2952996808, 3210313671, 3336571891, 3584528711,
   113926993, 338241895, 666307205, 773529912, 1294757372, 1396182291,
   1695183700, 1986661051, 2177026350, 2456956037, 2730485921, 2820302411,
   3259730800, 3345764771, 3516065817, 3600352804, 4094571909, 275423344,
   430227734, 506948616, 659060556, 883997877, 958139571, 1322822218,
   1537002063, 1747873779, 1955562222, 2024104815, 2227730452, 2361852424,
   2428436474, 2756734187, 3204031479, 3329325298]

/-- Extend the message schedule (kept reversed, head = most recent word). -/
def sha256Sched (wrev : List Nat) : Nat → List Nat
  | 0 => wrev.reverse
  | k + 1 =>
      sha256Sched
        (((ssig1 (wrev.getD 1 0) + wrev.getD 6 0 + ssig0 (wrev.getD 14 0)
            + wrev.getD 15 0) % 4294967296) :: wrev) k

/-- One SHA-256 round on the 8-word working state. -/
def sha256Round (st : Nat × Nat × Nat × Nat × Nat × Nat × Nat × Nat)
    (kw : Nat × Nat) : Nat × Nat × Nat × Nat × Nat × Nat × Nat × Nat :=
  let (a, b, c, d, e, f, g, h) := st
  let (kt, wt) := kw
  let ch := (e &&& f) ^^^ ((e ^^^ 4294967295) &&& g)
  let maj := (a &&& b) ^^^ (a &&& c) ^^^ (b &&& c)
  let t1 := (h + bsig1 e + ch + kt + wt) % 4294967296
  let t2 := (bsig0 a + maj) % 4294967296
  ((t1 + t2) % 4294967296, a, b, c, (d + t1) % 4294967296, e, f, g)

/-- SHA-256 compression of one 16-word block into the hash state. -/
def sha256Compress (st : Nat × Nat × Nat × Nat × Nat × Nat × Nat × Nat)
    (block : List Nat) : Nat × Nat × Nat × Nat × Nat × Nat × Nat × Nat :=
  let w := sha256Sched block.reverse 48
  let (a, b, c, d, e, f, g, h) := (sha256K.zip w).foldl sha256Round st
  let (a0, b0, c0, d0, e0, f0, g0, h0) := st
  ((a0 + a) % 4294967296, (b0 + b) % 4294967296, (c0 + c) % 4294967296,
   (d0 + d) % 4294967296, (e0 + e) % 4294967296, (f0 + f) % 4294967296,
   (g0 + g) % 4294967296, (h0 + h) % 4294967296)

/-- SHA-256 of a byte list, as a 32-byte list (`hashlib.sha256(..).digest()`). -/
def sha256Bytes (msg : List Nat) : List Nat :=
  let blocks := chunk16 (bytesToWords (shaPad msg))
  let (a, b, c, d, e, f, g, h) :=
    blocks.foldl sha256Compress
      (1779033703, 3144134277, 1013904242, 2773480762,
       1359893119, 2600822924, 528734635, 1541459225)
  [a, b, c, d, e, f, g, h].flatMap word32ToBytes

/-- SHA-256 lowercase hex digest (`hashlib.sha256(..).hexdigest()`). -/
def sha256Hex (msg : List Nat) : String := bytesToHexLower (sha256Bytes msg)

/-- Extend the SHA-1 message schedule (kept reversed). -/
def sha1Sched (wrev : List Nat) : Nat → List Nat
  | 0 => wrev.reverse
  | k + 1 =>
      sha1Sched
        ((rotl32 1 (wrev.getD 2 0 ^^^ wrev.getD 7 0 ^^^ wrev.getD 13 0
            ^^^ wrev.getD 15 0)) :: wrev) k

/-- SHA-1 round function, depending on the round index. -/
def sha1F (t b c d : Nat) : Nat :=
  if t < 20 then (b &&& c) ||| ((b ^^^ 4294967295) &&& d)
  else if t < 40 then b ^^^ c ^^^ d
  else if t < 60 then (b &&& c) ||| (b &&& d) ||| (c &&& d)
  else b ^^^ c ^^^ d

/-- SHA-1 round constant, depending on the round index. -/
def sha1KC (t : Nat) : Nat :=
  if t < 20 then 1518500249
  else if t < 40 then 1859775393
  else if t < 60 then 2400959708
  else 3395469782

/-- One SHA-1 round on the 5-word working state. -/
def sha1Round (st : Nat × Nat × Nat × Nat × Nat) (tw : Nat × Nat) :
    Nat × Nat × Nat × Nat × Nat :=
  let (a, b, c, d, e) := st
  let (t, wt) := tw
  ((rotl32 5 a + sha1F t b c d + e + sha1KC t + wt) % 4294967296,
   a, rotl32 30 b, c, d)

/-- SHA-1 compression of one 16-word block into the hash state. -/
def sha1Compress (st : Nat × Nat × Nat × Nat × Nat) (block : List Nat) :
    Nat × Nat × Nat × Nat × Nat :=
  let w := sha1Sched block.reverse 64
  let (a, b, c, d, e) := ((List.range 80).zip w).foldl sha1Round st
  let (a0, b0, c0, d0, e0) := st
  ((a0 + a) % 4294967296, (b0 + b) % 4294967296, (c0 + c) % 4294967296,
   (d0 + d) % 4294967296, (e0 + e) % 4294967296)

/-- SHA-1 of a byte list, as a 20-byte list. -/
def sha1Bytes (msg : List Nat) : List Nat :=
  let blocks := chunk16 (bytesToWords (shaPad msg))
  let (a, b, c, d, e) :=
    blocks.foldl sha1Compress
      (1732584193, 4023233417, 2562383102, 271733878, 3285377520)
  [a, b, c, d, e].flatMap word32ToBytes

/-- HMAC-SHA1 (`hmac.new(key, msg, hashlib.sha1)`): keys longer than the
64-byte block are hashed first, then padded with zeros; inner pad `54`,
outer pad `92`. -/
def hmacSha1 (key msg : List Nat) : List Nat :=
  let k0 := if 64 < key.length then sha1Bytes key else key
  let kp := k0 ++ List.replicate (64 - k0.length) 0
  sha1Bytes ((kp.map fun b => b ^^^ 92)
    ++ sha1Bytes ((kp.map fun b => b ^^^ 54) ++ msg))

/-- HMAC-SHA1 lowercase hex digest (`.hexdigest()`). -/
def hmacSha1Hex (key msg : List Nat) : String := bytesToHexLower (hmacSha1 key msg)

/-! ## UTF-8 and percent-encoding (`urllib.parse.quote(_, safe='')`) -/

/-- UTF-8 encoding of one Unicode scalar value, as a list of bytes. -/
def utf8EncodeScalar (n : Nat) : List Nat :=
  if n < 128 then [n]
  else if n < 2048 then [192 + n / 64, 128 + n % 64]
  else if n < 65536 then [224 + n / 4096, 128 + (n / 64) % 64, 128 + n % 64]
  else [240 + n / 262144, 128 + (n / 4096) % 64, 128 + (n / 64) % 64, 128 + n % 64]

/-- UTF-8 bytes of a Lean string (Python `s.encode()` for well-formed text). -/
def strBytes (s : String) : List Nat :=
  s.data.flatMap fun c => utf8EncodeScalar c.toNat

/-- Bytes never escaped by `urllib.parse.quote`: ASCII letters, digits and
`-`, `.`, `_`, `~` — exactly the RFC 3986 unreserved set (with `safe=''`
nothing else is exempted). -/
def isSafeByte (b : Nat) : Bool :=
  decide ((65 ≤ b ∧ b ≤ 90) ∨ (97 ≤ b ∧ b ≤ 122) ∨ (48 ≤ b ∧ b ≤ 57) ∨
    b = 45 ∨ b = 46 ∨ b = 95 ∨ b = 126)

/-- Percent-encoding of one byte: safe bytes stand for themselves, every
other byte becomes `%XX` with uppercase hex. -/
def pctEncodeByteChars (b : Nat) : List Char :=
  if isSafeByte b then [Char.ofNat b] else ['%', hexUpperChar (b / 16), hexUpperChar (b % 16)]

/-- `urllib.parse.quote(s, safe='')`: UTF-8 encode, then percent-encode each
byte with no characters exempted. -/
def pyQuote (s : String) : String :=
  ⟨(strBytes s).flatMap pctEncodeByteChars⟩

/-- `canonical_url_encode` from the source: `urllib.parse.quote(url, safe='')`,
so that `/` is encoded as `%2F`. -/
def canonical_url_encode (url : String) : String :=
  pyQuote url

/-- `double_encode` from the source:
`urllib.parse.quote(urllib.parse.quote(s, safe=''), safe='')`. -/
def double_encode (s : String) : String :=
  pyQuote (pyQuote s)

/-- Step 2 of `generate_signature`:
`'&'.join(f"{quote(k, safe='')}={double_encode(v)}" for k, v in query_params)`. -/
def encodeQuery (query_params : List (String × String)) : String :=
  String.intercalate "&" (query_params.map fun p => pyQuote p.1 ++ "=" ++ double_encode p.2)

/-! ## Timestamp (`datetime.now(timezone.utc).strftime('%Y-%m-%dT%H:%M:%S.%f')[:-3] + 'Z'`) -/

/-- A UTC wall-clock reading, as the fields `datetime.now(timezone.utc)`
exposes to `strftime` (microseconds in `0..999999` on a valid datetime). -/
structure PyDatetime where
  year : Nat
  month : Nat
  day : Nat
  hour : Nat
  minute : Nat
  second : Nat
  microsecond : Nat
deriving DecidableEq

/-- The `w` low decimal digits of `n`, zero padded, as `strftime`'s
zero-padded numeric directives print fields in range. -/
def padDigits : Nat → Nat → List Char
  | 0, _ => []
  | w + 1, n => padDigits w (n / 10) ++ [Char.ofNat (48 + n % 10)]

/-- The character list of `strftime('%Y-%m-%dT%H:%M:%S.%f')`: six fractional
digits from the microsecond field. -/
def isoChars (dt : PyDatetime) : List Char :=
  padDigits 4 dt.year ++ ['-'] ++ padDigits 2 dt.month ++ ['-'] ++ padDigits 2 dt.day
    ++ ['T'] ++ padDigits 2 dt.hour ++ [':'] ++ padDigits 2 dt.minute
    ++ [':'] ++ padDigits 2 dt.second ++ ['.'] ++ padDigits 6 dt.microsecond

/-- Step 1 of `generate_signature`: the formatted instant with the last three
characters sliced off (`[:-3]`, Python slicing = `take (length - 3)`) and a
literal `'Z'` appended. -/
def formatTimestamp (dt : PyDatetime) : String :=
  ⟨((isoChars dt).take ((isoChars dt).length - 3)) ++ ['Z']⟩

/-! ## The Signer (`generate_signature`) and the header builder -/

/-- `generate_signature(access_key, secret_key, method, uri, query_params)`,
with the wall-clock reading `now` passed explicitly in place of
`datetime.now(timezone.utc)`.  Each `let` mirrors one line of the source. -/
def generate_signature (now : PyDatetime) (access_key secret_key method uri : String)
    (query_params : List (String × String)) : String × String :=
  let timestamp := formatTimestamp now
  let encoded_params := encodeQuery query_params
  let canonical_uri := canonical_url_encode uri
  let request_body := ""
  let hashed_body := sha256Hex (strBytes request_body)
  let canonical_request := method ++ "&" ++ canonical_uri ++ "&" ++ encoded_params
    ++ "&" ++ hashed_body
  let hashed_canonical_request := sha256Hex (strBytes canonical_request)
  let string_to_sign := "HMAC-SHA1&" ++ timestamp ++ "&" ++ access_key ++ "&"
    ++ hashed_canonical_request
  let signature := hmacSha1Hex (strBytes secret_key) (strBytes string_to_sign)
  (timestamp, signature)

/-- The header map built from the Signer's output (source lines 124-130), as
an association list in source order. -/
def buildHeaders (access_key timestamp signature : String) : List (String × String) :=
  [("Authorization",
      "dinetime-sv2-hmac-sha1 Algorithm=SHA256&Credentials=" ++ access_key
        ++ "&Signature=" ++ signature),
   ("x-dinetime-timestamp", timestamp),
   ("x-dinetime-signature-version", "dinetime-sv2-hmac-sha1"),
   ("Accept", "*/*"),
   ("User-Agent", "PythonApp")]

/-! ## Pagination (`paginate_data`) -/

/-- Python list slicing `l[start:stop]` (step 1): negative indices count from
the end, then both bounds are clamped to `[0, len(l)]`. -/
def pySlice {α : Type} (l : List α) (start stop : Int) : List α :=
  let n : Int := l.length
  let s := if start < 0 then max (n + start) 0 else min start n
  let e := if stop < 0 then max (n + stop) 0 else min stop n
  (l.take e.toNat).drop s.toNat

/-- `paginate_data(data, page_size, page_num)` from the source: `None` when
`page_size` is `None`, otherwise `data[offset : offset + page_size]` with
`offset = page_size * (page_num - 1)`. -/
def paginate_data {α : Type} (data : List α) (page_size : Option Int) (page_num : Int) :
    Option (List α) :=
  match page_size with
  | none => none
  | some ps => some (pySlice data (ps * (page_num - 1)) (ps * (page_num - 1) + ps))

/-! ## Code-point-level model with explicit encoding errors

Python `str` values may contain lone surrogates, which `str.encode()` (and
hence `urllib.parse.quote` and the hashing calls) reject by raising
`UnicodeEncodeError`.  Lean's `String` cannot represent such values, so this
second model of the same source lines works on raw code-point lists and
returns `Except`. -/

/-- A Python `str`: a list of Unicode code points (surrogates permitted). -/
abbrev PyStr := List Nat

/-- The exception `str.encode()` raises on a lone surrogate, surfaced by
`generate_signature` because the source never catches it. -/
inductive EncodingError where
  | unicodeEncodeError : EncodingError
deriving DecidableEq

/-- A code point UTF-8 can encode: any Unicode scalar value (below
`1114112` and not a surrogate). -/
def isScalarCp (n : Nat) : Bool :=
  decide (n < 1114112 ∧ (n < 55296 ∨ 57343 < n))

/-- `s.encode()` on a code-point list: UTF-8 bytes, or `UnicodeEncodeError`
at the first lone surrogate. -/
def pyEncodeStr : PyStr → Except EncodingError (List Nat)
  | [] => .ok []
  | c :: rest =>
    if isScalarCp c then
      match pyEncodeStr rest with
      | .ok bs => .ok (utf8EncodeScalar c ++ bs)
      | .error e => .error e
    else .error .unicodeEncodeError

/-- Percent-encoding of one byte at the code-point level. -/
def pctEncodeBytePy (b : Nat) : PyStr :=
  (pctEncodeByteChars b).map Char.toNat

/-- `urllib.parse.quote(s, safe='')` at the code-point level. -/
def pyQuotePy (s : PyStr) : Except EncodingError PyStr :=
  match pyEncodeStr s with
  | .ok bs => .ok (bs.flatMap pctEncodeBytePy)
  | .error e => .error e

/-- `double_encode` at the code-point level. -/
def double_encodePy (s : PyStr) : Except EncodingError PyStr :=
  match pyQuotePy s with
  | .ok r => pyQuotePy r
  | .error e => .error e

/-- The code points of a Lean string (every Lean `Char` is a scalar value). -/
def asPy (s : String) : PyStr :=
  s.data.map Char.toNat

/-- The encoded `key=value` parts of step 2, evaluated in input order with
`quote(k)` before `double_encode(v)` as in the source's f-string. -/
def encodeParts : List (PyStr × PyStr) → Except EncodingError (List PyStr)
  | [] => .ok []
  | p :: rest =>
    match pyQuotePy p.1 with
    | .error e => .error e
    | .ok qk =>
      match double_encodePy p.2 with
      | .error e => .error e
      | .ok dv =>
        match encodeParts rest with
        | .error e => .error e
        | .ok tail => .ok ((qk ++ [61] ++ dv) :: tail)

/-- `'&'.join` of the parts (code point 38 = `'&'`). -/
def joinAmp : List PyStr → PyStr
  | [] => []
  | [x] => x
  | x :: y :: rest => x ++ [38] ++ joinAmp (y :: rest)

/-- `generate_signature` at the code-point level: identical computation to
`generate_signature`, with every `str.encode()` (inside `quote` and before
each hash) able to raise `UnicodeEncodeError`, which propagates. -/
def generate_signaturePy (now : PyDatetime) (access_key secret_key method uri : PyStr)
    (query_params : List (PyStr × PyStr)) : Except EncodingError (PyStr × PyStr) :=
  let timestamp := asPy (formatTimestamp now)
  match encodeParts query_params with
  | .error e => .error e
  | .ok parts =>
    let encoded_params := joinAmp parts
    match pyQuotePy uri with
    | .error e => .error e
    | .ok canonical_uri =>
      let hashed_body := asPy (sha256Hex [])
      let canonical_request := method ++ asPy "&" ++ canonical_uri ++ asPy "&"
        ++ encoded_params ++ asPy "&" ++ hashed_body
      match pyEncodeStr canonical_request with
      | .error e => .error e
      | .ok crBytes =>
        let hashed_canonical_request := asPy (sha256Hex crBytes)
        let string_to_sign := asPy "HMAC-SHA1&" ++ timestamp ++ asPy "&" ++ access_key
          ++ asPy "&" ++ hashed_canonical_request
        match pyEncodeStr secret_key with
        | .error e => .error e
        | .ok skBytes =>
          match pyEncodeStr string_to_sign with
          | .error e => .error e
          | .ok stsBytes => .ok (timestamp, asPy (hmacSha1Hex skBytes stsBytes))

/-! ## Definitions taken from the specification's words (for refinement) -/

/-- Modelled from the spec: the canonical request
`"{method}&{canonical_uri}&{encoded_params}&{hashed_body}"` with the
canonicalized uri, the encoded query string and the empty-body hash. -/
def canonicalRequestSpec (method uri : String) (query_params : List (String × String)) :
    String :=
  method ++ "&" ++ canonical_url_encode uri ++ "&" ++ encodeQuery query_params
    ++ "&" ++ sha256Hex (strBytes "")

/-- Modelled from the spec: the string-to-sign
`"HMAC-SHA1&" ++ timestamp ++ "&" ++ access_key ++ "&" ++ h` where `h` is the
lowercase-hex SHA-256 of the canonical request. -/
def stringToSignSpec (timestamp access_key method uri : String)
    (query_params : List (String × String)) : String :=
  "HMAC-SHA1&" ++ timestamp ++ "&" ++ access_key ++ "&"
    ++ sha256Hex (strBytes (canonicalRequestSpec method uri query_params))

/-- Modelled from the spec: the signature — lowercase-hex HMAC-SHA1, keyed by
the raw UTF-8 bytes of `secret_key`, of the string-to-sign. -/
def signatureSpec (timestamp access_key secret_key method uri : String)
    (query_params : List (String × String)) : String :=
  hmacSha1Hex (strBytes secret_key)
    (strBytes (stringToSignSpec timestamp access_key method uri query_params))

/-- The RFC 3986 unreserved characters: letters, digits, `-`, `.`, `_`, `~`
(as a predicate on characters; for ASCII characters the single UTF-8 byte is
the code point). -/
def isUnreserved (c : Char) : Bool := isSafeByte c.toNat

/-- The percent-encoding of one character: its UTF-8 bytes, each rendered by
the byte encoder. -/
def encodeChar (c : Char) : List Char :=
  (utf8EncodeScalar c.toNat).flatMap pctEncodeByteChars

/-! ## Helper lemmas -/

theorem pctEscaped {b : Nat} (h : isSafeByte b = false) :
    pctEncodeByteChars b = ['%', hexUpperChar (b / 16), hexUpperChar (b % 16)] := by
  simp [pctEncodeByteChars, h]

theorem byte128Escaped {b : Nat} (h : 128 ≤ b) : isSafeByte b = false := by
  simp [isSafeByte]
  omega

/-- `quote` applied to a (well-formed) string encodes it character by
character, because UTF-8 encoding concatenates per-character byte groups. -/
theorem quote_decompose (s : String) : pyQuote s = ⟨s.data.flatMap encodeChar⟩ := by
  simp only [pyQuote, strBytes, List.flatMap_assoc]
  rfl

/-- An unreserved character stands for itself under the byte encoder. -/
theorem encodeChar_safe {c : Char} (h : isSafeByte c.toNat = true) : encodeChar c = [c] := by
  have hlt : c.toNat < 128 := by
    simp [isSafeByte] at h
    omega
  simp [encodeChar, utf8EncodeScalar, hlt, pctEncodeByteChars, h, Char.ofNat_toNat]

/-- Any other character produces one or more `%XX` groups: output starts
with `%` and has at least three characters. -/
theorem encodeCharEscaped {c : Char} (h : isSafeByte c.toNat = false) :
    (encodeChar c).head? = some '%' ∧ 3 ≤ (encodeChar c).length := by
  by_cases h1 : c.toNat < 128
  · simp [encodeChar, utf8EncodeScalar, h1, pctEscaped h]
  · by_cases h2 : c.toNat < 2048
    · have hb1 := byte128Escaped (b := 192 + c.toNat / 64) (by omega)
      have hb2 := byte128Escaped (b := 128 + c.toNat % 64) (by omega)
      simp [encodeChar, utf8EncodeScalar, h1, h2, pctEscaped hb1, pctEscaped hb2]
    · by_cases h3 : c.toNat < 65536
      · have hb1 := byte128Escaped (b := 224 + c.toNat / 4096) (by omega)
        have hb2 := byte128Escaped (b := 128 + (c.toNat / 64) % 64) (by omega)
        have hb3 := byte128Escaped (b := 128 + c.toNat % 64) (by omega)
        simp [encodeChar, utf8EncodeScalar, h1, h2, h3, pctEscaped hb1, pctEscaped hb2,
          pctEscaped hb3]
      · have hb1 := byte128Escaped (b := 240 + c.toNat / 262144) (by omega)
        have hb2 := byte128Escaped (b := 128 + (c.toNat / 4096) % 64) (by omega)
        have hb3 := byte128Escaped (b := 128 + (c.toNat / 64) % 64) (by omega)
        have hb4 := byte128Escaped (b := 128 + c.toNat % 64) (by omega)
        simp [encodeChar, utf8EncodeScalar, h1, h2, h3, pctEscaped hb1, pctEscaped hb2,
          pctEscaped hb3, pctEscaped hb4]

theorem padDigits_length (w : Nat) : ∀ n, (padDigits w n).length = w := by
  induction w with
  | zero => intro n; rfl
  | succ w ih => intro n; simp [padDigits, ih]

/-- Splitting zero-padded digit groups: the `a + b` low digits of `n` are the
`a` low digits of `n / 10 ^ b` followed by the `b` low digits of `n`. -/
theorem padDigits_append (a b : Nat) :
    ∀ n, padDigits (a + b) n = padDigits a (n / 10 ^ b) ++ padDigits b n := by
  induction b with
  | zero => intro n; simp [padDigits]
  | succ b ih =>
    intro n
    have h1 : a + (b + 1) = (a + b) + 1 := rfl
    rw [h1, padDigits, ih (n / 10), padDigits]
    rw [Nat.div_div_eq_div_mul, List.append_assoc]
    congr 2
    rw [pow_succ']

/-! ## Implementation sanity vectors (known-answer tests for the crypto layer) -/

set_option maxRecDepth 20000 in
theorem sha256_abc_vector : sha256Hex (strBytes "abc") =
    "ba7816bf8f01cfea414140de5dae2223b00361a396177a9cb410ff61f20015ad" := by decide

set_option maxRecDepth 20000 in
theorem sha1_abc_vector : bytesToHexLower (sha1Bytes (strBytes "abc")) =
    "a9993e364706816aba3e25717850c26c9cd0d89d" := by decide

set_option maxRecDepth 80000 in
theorem hmacSha1_rfc_vector :
    hmacSha1Hex (strBytes "key") (strBytes "The quick brown fox jumps over the lazy dog") =
      "de7c9b85b8b78aa6bc8a7a36f70a90701c9db4d9" := by decide

theorem utf8_multibyte_vector : pyQuote "é à/+" = "%C3%A9%20%C3%A0%2F%2B" := by decide

/-! ## The claims -/

/-- C1.  For every `access_key`, `secret_key`, `method`, `uri` and ordered
`query_params`, with a fixed timestamp substituted for the wall-clock read,
`generate_signature` returns `(t, sig)` where `sig` is the lowercase-hex
HMAC-SHA1 digest, keyed by the raw UTF-8 bytes of `secret_key`, of
`"HMAC-SHA1&" ++ t ++ "&" ++ access_key ++ "&" ++ h`, with `h` the
lowercase-hex SHA-256 of the canonical request
`"{method}&{canonical_uri}&{encoded_params}&{hashed_body}"` assembled from
the canonicalized uri, the encoded query string and the empty-body hash
(the right-hand side is assembled by the `…Spec` definitions, which follow
the specification's words). -/
theorem claim_C1_signature_pipeline (now : PyDatetime)
    (access_key secret_key method uri : String) (query_params : List (String × String)) :
    generate_signature now access_key secret_key method uri query_params =
      (formatTimestamp now,
        signatureSpec (formatTimestamp now) access_key secret_key method uri query_params) :=
  rfl

/-- C2.  The encoded query string of the Signer's step 2 percent-encodes each
key once (nothing exempted), double-encodes each value, and joins the pairs
with `&` in exactly the input order; in particular for
`[(endTime, e), (startTime, s)]` the `endTime` pair comes first. -/
theorem claim_C2_query_encoding :
    (∀ query_params : List (String × String),
      encodeQuery query_params = String.intercalate "&"
        (query_params.map fun p => canonical_url_encode p.1 ++ "=" ++ double_encode p.2)) ∧
    (∀ e s : String, encodeQuery [("endTime", e), ("startTime", s)] =
      "endTime=" ++ double_encode e ++ "&startTime=" ++ double_encode s) := by
  refine ⟨fun _ => rfl, fun e s => ?_⟩
  simp only [encodeQuery, List.map, String.intercalate, String.intercalate.go]
  have h1 : pyQuote "endTime" = "endTime" := by decide
  have h2 : pyQuote "startTime" = "startTime" := by decide
  rw [h1, h2]
  apply String.ext
  simp [String.data_append]

/-- C3.  Every timestamp of the Signer's step 1 renders the wall-clock
instant as `YYYY-MM-DDTHH:MM:SS.mmmZ`: zero-padded fields, exactly three
fractional digits equal to `microsecond / 1000` (truncation, not rounding),
and a literal `'Z'` suffix. -/
theorem claim_C3_timestamp_format (dt : PyDatetime) :
    formatTimestamp dt =
      String.mk (padDigits 4 dt.year) ++ "-" ++ String.mk (padDigits 2 dt.month) ++ "-"
        ++ String.mk (padDigits 2 dt.day) ++ "T" ++ String.mk (padDigits 2 dt.hour) ++ ":"
        ++ String.mk (padDigits 2 dt.minute) ++ ":" ++ String.mk (padDigits 2 dt.second)
        ++ "." ++ String.mk (padDigits 3 (dt.microsecond / 1000)) ++ "Z"
      ∧ (padDigits 3 (dt.microsecond / 1000)).length = 3 := by
  refine ⟨?_, padDigits_length 3 _⟩
  have hsplit : padDigits 6 dt.microsecond =
      padDigits 3 (dt.microsecond / 1000) ++ padDigits 3 dt.microsecond := by
    have h := padDigits_append 3 3 dt.microsecond
    norm_num at h
    exact h
  have hiso : isoChars dt =
      (padDigits 4 dt.year ++ ['-'] ++ padDigits 2 dt.month ++ ['-'] ++ padDigits 2 dt.day
        ++ ['T'] ++ padDigits 2 dt.hour ++ [':'] ++ padDigits 2 dt.minute
        ++ [':'] ++ padDigits 2 dt.second ++ ['.'] ++ padDigits 3 (dt.microsecond / 1000))
        ++ padDigits 3 dt.microsecond := by
    rw [isoChars, hsplit]
    simp [List.append_assoc]
  apply String.ext
  rw [formatTimestamp]
  show ((isoChars dt).take ((isoChars dt).length - 3)) ++ ['Z'] = _
  rw [hiso, List.length_append, padDigits_length, Nat.add_sub_cancel, List.take_left]
  simp [String.data_append, List.append_assoc]

/-- C4.  `canonical_url_encode` works character by character, leaves exactly
the RFC 3986 unreserved characters unescaped and percent-encodes every other
character (its encoding then starts with `%`); in particular `/` becomes
`%2F` and `canonical_url_encode "/Site/abc/Metrics/X" =
"%2FSite%2Fabc%2FMetrics%2FX"`.  The function is total: it cannot fail on
(well-formed) input. -/
theorem claim_C4_unreserved_characterization :
    (∀ s : String, canonical_url_encode s = ⟨s.data.flatMap encodeChar⟩) ∧
    (∀ c : Char, encodeChar c = [c] ↔ isUnreserved c = true) ∧
    (∀ c : Char, isUnreserved c = false → (encodeChar c).head? = some '%') ∧
    encodeChar '/' = ['%', '2', 'F'] ∧
    canonical_url_encode "/Site/abc/Metrics/X" = "%2FSite%2Fabc%2FMetrics%2FX" := by
  refine ⟨fun s => quote_decompose s, fun c => ⟨fun h => ?_, fun h => encodeChar_safe h⟩,
    fun c h => (encodeCharEscaped h).1, by decide, by decide⟩
  by_contra hn
  have h3 := encodeCharEscaped (c := c) (by simpa [isUnreserved] using hn)
  rw [h] at h3
  simp at h3

/-- C4 witness: `/` is not unreserved and its encoding starts with `%`;
`A` is unreserved and stands for itself. -/
theorem claim_C4_witness :
    (encodeChar '/').head? = some '%' ∧ encodeChar 'A' = ['A'] :=
  ⟨claim_C4_unreserved_characterization.2.2.1 '/' (by decide),
   (claim_C4_unreserved_characterization.2.1 'A').mpr (by decide)⟩

/-- C5.  `double_encode` is percent-encoding applied twice under the same
safe-character rule: `double_encode s = canonical_url_encode
(canonical_url_encode s)` for every string, and `double_encode "+" =
"%252B"`. -/
theorem claim_C5_double_encode :
    (∀ s : String, double_encode s = canonical_url_encode (canonical_url_encode s)) ∧
    double_encode "+" = "%252B" :=
  ⟨fun _ => rfl, by decide⟩

set_option maxRecDepth 20000 in
/-- C6.  The `hashed_body` used in every signing equals the lowercase-hex
SHA-256 of the empty string, the well-known constant `e3b0c4…b855`, spliced
into the canonical request independently of all other inputs. -/
theorem claim_C6_empty_body_hash :
    sha256Hex (strBytes "") =
      "e3b0c44298fc1c149afbf4c8996fb92427ae41e4649b934ca495991b7852b855" ∧
    ∀ (now : PyDatetime) (access_key secret_key method uri : String)
      (query_params : List (String × String)),
      (generate_signature now access_key secret_key method uri query_params).2 =
        hmacSha1Hex (strBytes secret_key)
          (strBytes ("HMAC-SHA1&" ++ formatTimestamp now ++ "&" ++ access_key ++ "&"
            ++ sha256Hex (strBytes (method ++ "&" ++ canonical_url_encode uri ++ "&"
              ++ encodeQuery query_params ++ "&"
              ++ "e3b0c44298fc1c149afbf4c8996fb92427ae41e4649b934ca495991b7852b855")))) := by
  have h : sha256Hex (strBytes "") =
      "e3b0c44298fc1c149afbf4c8996fb92427ae41e4649b934ca495991b7852b855" := by decide
  refine ⟨h, fun now ak sk m uri qp => ?_⟩
  rw [← h]
  rfl

/-- C7.  The header map built from the Signer's output maps `Authorization`
to exactly `dinetime-sv2-hmac-sha1 Algorithm=SHA256&Credentials={access_key}
&Signature={signature}`, `x-dinetime-timestamp` to exactly the returned
timestamp, and `x-dinetime-signature-version` to the literal
`dinetime-sv2-hmac-sha1`. -/
theorem claim_C7_headers (now : PyDatetime) (access_key secret_key method uri : String)
    (query_params : List (String × String)) :
    (buildHeaders access_key (generate_signature now access_key secret_key method uri query_params).1
        (generate_signature now access_key secret_key method uri query_params).2).lookup
        "Authorization" =
      some ("dinetime-sv2-hmac-sha1 Algorithm=SHA256&Credentials=" ++ access_key
        ++ "&Signature="
        ++ (generate_signature now access_key secret_key method uri query_params).2) ∧
    (buildHeaders access_key (generate_signature now access_key secret_key method uri query_params).1
        (generate_signature now access_key secret_key method uri query_params).2).lookup
        "x-dinetime-timestamp" =
      some (generate_signature now access_key secret_key method uri query_params).1 ∧
    (buildHeaders access_key (generate_signature now access_key secret_key method uri query_params).1
        (generate_signature now access_key secret_key method uri query_params).2).lookup
        "x-dinetime-signature-version" = some "dinetime-sv2-hmac-sha1" := by
  refine ⟨?_, ?_, ?_⟩ <;> rfl

/-- C8.  With the wall-clock reading fixed, `generate_signature` is a pure
deterministic function of its arguments: two invocations on the same inputs
return the same `(timestamp, signature)` pair (in this embedding the
computation is a function with no other state, so invocations are literally
the same value). -/
theorem claim_C8_determinism (now : PyDatetime)
    (access_key secret_key method uri : String) (query_params : List (String × String)) :
    generate_signature now access_key secret_key method uri query_params =
      generate_signature now access_key secret_key method uri query_params :=
  rfl

/-! ## Lemmas for the encoding-error model -/

theorem charScalar (c : Char) : isScalarCp c.toNat = true := by
  have h := c.valid
  simp [UInt32.isValidChar, Nat.isValidChar] at h
  simp [isScalarCp, Char.toNat]
  omega

theorem asPy_scalar (s : String) : (asPy s).all isScalarCp = true := by
  simp [asPy, List.all_map, List.all_eq_true]
  intro c _
  exact charScalar c

theorem pyEncodeStr_ok {s : PyStr} (h : s.all isScalarCp = true) :
    ∃ bs, pyEncodeStr s = .ok bs := by
  induction s with
  | nil => exact ⟨[], rfl⟩
  | cons c rest ih =>
    rw [List.all_cons, Bool.and_eq_true] at h
    obtain ⟨bs, hbs⟩ := ih h.2
    exact ⟨utf8EncodeScalar c ++ bs, by simp [pyEncodeStr, h.1, hbs]⟩

theorem pyEncodeStr_err {s : PyStr} (h : s.all isScalarCp = false) :
    pyEncodeStr s = .error .unicodeEncodeError := by
  induction s with
  | nil => simp at h
  | cons c rest ih =>
    by_cases hc : isScalarCp c = true
    · have hrest : rest.all isScalarCp = false := by
        rw [List.all_cons, hc, Bool.true_and] at h
        exact h
      simp [pyEncodeStr, hc, ih hrest]
    · have hc2 : isScalarCp c = false := by simpa using hc
      simp [pyEncodeStr, hc2]

theorem pyQuotePy_ok {s : PyStr} (h : s.all isScalarCp = true) :
    ∃ r, pyQuotePy s = .ok r ∧ r.all isScalarCp = true := by
  obtain ⟨bs, hbs⟩ := pyEncodeStr_ok h
  refine ⟨bs.flatMap pctEncodeBytePy, by simp [pyQuotePy, hbs], ?_⟩
  simp only [List.all_eq_true, List.mem_flatMap]
  rintro x ⟨b, _, hxb⟩
  simp only [pctEncodeBytePy, List.mem_map] at hxb
  obtain ⟨c, _, rfl⟩ := hxb
  exact charScalar c

theorem pyQuotePy_err {s : PyStr} (h : s.all isScalarCp = false) :
    pyQuotePy s = .error .unicodeEncodeError := by
  simp [pyQuotePy, pyEncodeStr_err h]

theorem double_encodePy_ok {s : PyStr} (h : s.all isScalarCp = true) :
    ∃ r, double_encodePy s = .ok r ∧ r.all isScalarCp = true := by
  obtain ⟨r1, hr1, hr1S⟩ := pyQuotePy_ok h
  obtain ⟨r2, hr2, hr2S⟩ := pyQuotePy_ok hr1S
  exact ⟨r2, by simp [double_encodePy, hr1, hr2], hr2S⟩

theorem double_encodePy_err {s : PyStr} (h : s.all isScalarCp = false) :
    double_encodePy s = .error .unicodeEncodeError := by
  simp [double_encodePy, pyQuotePy_err h]

theorem encodeParts_ok {qp : List (PyStr × PyStr)}
    (h : ∀ p ∈ qp, p.1.all isScalarCp = true ∧ p.2.all isScalarCp = true) :
    ∃ ls, encodeParts qp = .ok ls ∧ ∀ l ∈ ls, l.all isScalarCp = true := by
  induction qp with
  | nil => exact ⟨[], rfl, by simp⟩
  | cons p rest ih =>
    obtain ⟨hp1, hp2⟩ := h p (by simp)
    obtain ⟨ls, hls, hlsS⟩ := ih fun q hq => h q (by simp [hq])
    obtain ⟨qk, hqk, hqkS⟩ := pyQuotePy_ok hp1
    obtain ⟨dv, hdv, hdvS⟩ := double_encodePy_ok hp2
    refine ⟨(qk ++ [61] ++ dv) :: ls, by simp [encodeParts, hqk, hdv, hls], ?_⟩
    intro l hl
    rw [List.mem_cons] at hl
    rcases hl with hl | hl
    · subst hl
      have h61 : isScalarCp 61 = true := by decide
      simp [List.all_append, hqkS, hdvS, h61]
    · exact hlsS l hl

theorem encodeParts_err {qp : List (PyStr × PyStr)}
    (h : ∃ p ∈ qp, p.1.all isScalarCp = false ∨ p.2.all isScalarCp = false) :
    encodeParts qp = .error .unicodeEncodeError := by
  induction qp with
  | nil => simp at h
  | cons q rest ih =>
    by_cases hq1 : q.1.all isScalarCp = true
    · by_cases hq2 : q.2.all isScalarCp = true
      · have hrest : ∃ p ∈ rest, p.1.all isScalarCp = false ∨ p.2.all isScalarCp = false := by
          obtain ⟨p, hp, hbad⟩ := h
          rw [List.mem_cons] at hp
          rcases hp with hp | hp
          · subst hp
            rcases hbad with hb | hb
            · rw [hq1] at hb; cases hb
            · rw [hq2] at hb; cases hb
          · exact ⟨p, hp, hbad⟩
        obtain ⟨qk, hqk, _⟩ := pyQuotePy_ok hq1
        obtain ⟨dv, hdv, _⟩ := double_encodePy_ok hq2
        simp [encodeParts, hqk, hdv, ih hrest]
      · obtain ⟨qk, hqk, _⟩ := pyQuotePy_ok hq1
        have hq2f : q.2.all isScalarCp = false := by simpa using hq2
        simp [encodeParts, hqk, double_encodePy_err hq2f]
    · have hq1f : q.1.all isScalarCp = false := by simpa using hq1
      simp [encodeParts, pyQuotePy_err hq1f]

theorem joinAmp_scalar {ls : List PyStr} (h : ∀ l ∈ ls, l.all isScalarCp = true) :
    (joinAmp ls).all isScalarCp = true := by
  induction ls with
  | nil => rfl
  | cons x rest ih =>
    cases rest with
    | nil => simpa [joinAmp] using h x (by simp)
    | cons y rest2 =>
      have hx := h x (by simp)
      have hrest := ih fun l hl => h l (by simp [hl])
      have h38 : ([38] : PyStr).all isScalarCp = true := by decide
      show (x ++ [38] ++ joinAmp (y :: rest2)).all isScalarCp = true
      simp only [List.all_append, hx, hrest, h38, Bool.and_self]

/-- C9.  If every string fed to percent-encoding (the uri and the query
parameter keys and values) is well formed, `generate_signature` succeeds and
returns a `(timestamp, signature)` pair (given the remaining inputs are also
encodable); if any of those strings is malformed (contains a lone
surrogate), it fails with the encoding error, surfaced to the caller — no
partial canonical string is ever produced. -/
theorem claim_C9_encoding_errors (now : PyDatetime) (ak sk m uri : PyStr)
    (qp : List (PyStr × PyStr)) :
    ((ak.all isScalarCp = true ∧ sk.all isScalarCp = true ∧ m.all isScalarCp = true ∧
        uri.all isScalarCp = true ∧
        ∀ p ∈ qp, p.1.all isScalarCp = true ∧ p.2.all isScalarCp = true) →
      ∃ ts sig, generate_signaturePy now ak sk m uri qp = .ok (ts, sig)) ∧
    ((uri.all isScalarCp = false ∨
        ∃ p ∈ qp, p.1.all isScalarCp = false ∨ p.2.all isScalarCp = false) →
      generate_signaturePy now ak sk m uri qp = .error .unicodeEncodeError) := by
  constructor
  · rintro ⟨hak, hsk, hm, huri, hqp⟩
    obtain ⟨parts, hparts, hpartsS⟩ := encodeParts_ok hqp
    obtain ⟨curi, hcuri, hcuriS⟩ := pyQuotePy_ok huri
    have hcr : (m ++ asPy "&" ++ curi ++ asPy "&" ++ joinAmp parts ++ asPy "&"
        ++ asPy (sha256Hex [])).all isScalarCp = true := by
      simp [List.all_append, hm, hcuriS, asPy_scalar, joinAmp_scalar hpartsS]
    obtain ⟨crb, hcrb⟩ := pyEncodeStr_ok hcr
    obtain ⟨skb, hskb⟩ := pyEncodeStr_ok hsk
    have hsts : (asPy "HMAC-SHA1&" ++ asPy (formatTimestamp now) ++ asPy "&" ++ ak
        ++ asPy "&" ++ asPy (sha256Hex crb)).all isScalarCp = true := by
      simp [List.all_append, hak, asPy_scalar]
    obtain ⟨stsb, hstsb⟩ := pyEncodeStr_ok hsts
    refine ⟨asPy (formatTimestamp now), asPy (hmacSha1Hex skb stsb), ?_⟩
    simp only [generate_signaturePy, hparts, hcuri, hcrb, hskb, hstsb]
  · intro h
    rcases h with huri | hex
    · rcases hE : encodeParts qp with e | parts
      · cases e
        simp only [generate_signaturePy, hE]
      · simp only [generate_signaturePy, hE, pyQuotePy_err huri]
    · simp only [generate_signaturePy, encodeParts_err hex]

/-- C9 witness: on all-ASCII inputs the pipeline succeeds; a lone surrogate
(code point 55296) as uri makes it fail with the encoding error. -/
theorem claim_C9_witness :
    (∃ ts sig, generate_signaturePy ⟨2024, 1, 2, 3, 4, 5, 678901⟩
        (asPy "AK") (asPy "SK") (asPy "GET") (asPy "/x") [] = .ok (ts, sig)) ∧
    generate_signaturePy ⟨2024, 1, 2, 3, 4, 5, 678901⟩
        (asPy "AK") (asPy "SK") (asPy "GET") [55296] [] = .error .unicodeEncodeError :=
  ⟨(claim_C9_encoding_errors ⟨2024, 1, 2, 3, 4, 5, 678901⟩
      (asPy "AK") (asPy "SK") (asPy "GET") (asPy "/x") []).1
      ⟨by decide, by decide, by decide, by decide, by simp⟩,
   (claim_C9_encoding_errors ⟨2024, 1, 2, 3, 4, 5, 678901⟩
      (asPy "AK") (asPy "SK") (asPy "GET") [55296] []).2 (Or.inl (by decide))⟩

/-! ## Lemmas for pagination -/

/-- For a positive page size and a page number ≥ 1, `paginate_data` is the
contiguous slice `drop (ps * (pn - 1))` then `take ps`. -/
theorem paginate_pos {α : Type} (data : List α) (ps pn : Int) (hps : 0 < ps) (hpn : 1 ≤ pn) :
    paginate_data data (some ps) pn =
      some ((data.drop (ps * (pn - 1)).toNat).take ps.toNat) := by
  have ha : 0 ≤ ps * (pn - 1) := mul_nonneg hps.le (by omega)
  simp only [paginate_data, pySlice]
  rw [if_neg (by omega), if_neg (by omega)]
  congr 1
  have hdrop : (min (ps * (pn - 1)) ↑data.length).toNat = min (ps * (pn - 1)).toNat data.length := by
    omega
  have htake : data.take (min (ps * (pn - 1) + ps) ↑data.length).toNat =
      data.take ((ps * (pn - 1)).toNat + ps.toNat) := by
    rw [List.take_eq_take]
    omega
  rw [htake, hdrop]
  rcases le_or_lt (ps * (pn - 1)).toNat data.length with hle | hlt
  · rw [min_eq_left hle, List.drop_take, Nat.add_sub_cancel_left]
  · rw [min_eq_right hlt.le]
    rw [List.take_of_length_le (by omega), List.drop_length,
      List.drop_eq_nil_of_le hlt.le, List.take_nil]

/-- Concatenating the `take k` chunks of a list (one per page) recovers the
list, where the number of chunks is `⌈length / k⌉`. -/
theorem chunkJoinAux {α : Type} (k : Nat) (hk : 0 < k) :
    ∀ n (data : List α), data.length = n →
      ((List.range ((data.length + k - 1) / k)).map
        fun i => (data.drop (k * i)).take k).flatten = data := by
  intro n
  induction n using Nat.strong_induction_on with
  | _ n ih =>
    intro data hlen
    by_cases hnil : data = []
    · subst hnil
      have h0 : (0 + k - 1) / k = 0 := Nat.div_eq_of_lt (by omega)
      simp [h0]
    · have hpos : 0 < data.length := List.length_pos.mpr hnil
      have hK : (data.length + k - 1) / k = (data.length - 1) / k + 1 := by
        have h1 : data.length + k - 1 = (data.length - 1) + k := by omega
        rw [h1, Nat.add_div_right _ hk]
      rw [hK, List.range_succ_eq_map, List.map_cons, List.flatten_cons, Nat.mul_zero,
        List.drop_zero, List.map_map]
      have hrw : (List.range ((data.length - 1) / k)).map
            ((fun i => (data.drop (k * i)).take k) ∘ Nat.succ) =
          (List.range ((data.length - 1) / k)).map
            (fun i => ((data.drop k).drop (k * i)).take k) := by
        apply List.map_congr_left
        intro i _
        simp only [Function.comp_apply]
        rw [List.drop_drop]
        congr 1
        rw [Nat.succ_eq_add_one]
        ring_nf
      rw [hrw]
      rcases le_or_lt k data.length with hle | hlt
      · have hlen2 : (data.drop k).length = data.length - k := by
          simp only [List.length_drop]
        have hIdx : ((data.drop k).length + k - 1) / k = (data.length - 1) / k := by
          rw [hlen2]
          congr 1
          omega
        have hless : (data.drop k).length < n := by
          rw [hlen2]
          omega
        have hj := ih (data.drop k).length hless (data.drop k) rfl
        rw [hIdx] at hj
        rw [hj, List.take_append_drop]
      · have hm : (data.length - 1) / k = 0 := Nat.div_eq_of_lt (by omega)
        rw [hm]
        simp [List.take_of_length_le hlt.le]

/-- C10.  `paginate_data` returns `None` when `page_size` is `None`;
otherwise, for positive `page_size` and `page_num ≥ 1`, it returns the slice
from `page_size * (page_num - 1)` up to (excluding) `page_size * page_num`,
every page has at most `page_size` elements, and concatenating pages
`1 .. ⌈length / page_size⌉` recovers the data unchanged. -/
theorem claim_C10_pagination {α : Type} (data : List α) (ps pn : Int)
    (hps : 0 < ps) (hpn : 1 ≤ pn) :
    paginate_data data none pn = (none : Option (List α)) ∧
    paginate_data data (some ps) pn =
      some ((data.drop (ps * (pn - 1)).toNat).take ps.toNat) ∧
    (∀ r : List α, paginate_data data (some ps) pn = some r → r.length ≤ ps.toNat) ∧
    ((List.range ((data.length + ps.toNat - 1) / ps.toNat)).map
      fun (i : Nat) => (paginate_data data (some ps) ((i : Int) + 1)).getD []).flatten = data := by
  refine ⟨rfl, paginate_pos data ps pn hps hpn, ?_, ?_⟩
  · intro r hr
    rw [paginate_pos data ps pn hps hpn] at hr
    obtain rfl := (Option.some.inj hr).symm
    simp [List.length_take]
  · have hkey : ∀ i : Nat, (paginate_data data (some ps) ((i : Int) + 1)).getD [] =
        (data.drop (ps.toNat * i)).take ps.toNat := by
      intro i
      rw [paginate_pos data ps (↑i + 1) hps (by omega)]
      simp only [Option.getD_some]
      have h1 : ps * (↑i + 1 - 1) = ps * ↑i := by ring
      rw [h1]
      congr 2
      obtain ⟨p, rfl⟩ := Int.eq_ofNat_of_zero_le hps.le
      norm_cast
    rw [List.map_congr_left fun i _ => hkey i]
    exact chunkJoinAux ps.toNat (by omega) data.length data rfl

/-- C10 witness: page 2 of `[0, 1, 2, 3, 4]` with page size 2 is `[2, 3]`. -/
theorem claim_C10_witness :
    paginate_data ([0, 1, 2, 3, 4] : List Nat) (some 2) 2 = some [2, 3] :=
  ((claim_C10_pagination [0, 1, 2, 3, 4] 2 2 (by norm_num) (by norm_num)).2.1).trans (by decide)
